import Mathlib

/-!
# Verification of the Project Lockdown VRP optimiser

Shallow embedding of `src/vrp_optimiser.py` (warehouse assignment, fleet
allocation, load partitioning, route aggregation) together with proofs of the
spec's claims about it.

The two network-bound collaborators are embedded as abstract oracles:

* the distance oracle (`RouteOptimiser.get_distance`, lines 41-69) is a
  function `String → String → Option Nat` (meters, `none` on failure);
* the route oracle (`RouteOptimiser.get_optimised_route`, lines 71-110) is a
  function `List String → List (String × Nat)` mapping a waypoint list to the
  returned legs (end address, leg distance in meters); `[]` is the failure
  value (the source returns `[]` both when the request fails and when it
  never succeeds).

`calculate_warehouse_distances` (lines 112-135) restricts the distance oracle
to the `(warehouse, postcode)` pairs supplied, storing an entry exactly when
the oracle returned a value; the membership test
`postcode in warehouse_distances[warehouse]` on line 160 therefore holds
exactly when `dist warehouse postcode ≠ none`, and the stored value is the
oracle's value.  The embedding below queries the oracle directly at those
pairs, which is the same function.

Python `dict`s are embedded as total functions together with an explicit
first-occurrence key list (`dictKeys`); Python `defaultdict(list)` is embedded
as an association list grown in insertion order (`addToBucket`).  Real-valued
arithmetic (`proportion * total_trucks`, `total_distance / 1000`) is embedded
over `ℚ`; Python 3's `round` is round-half-to-even (`pythonRound`).
-/

/-- Distance oracle: warehouse → postcode → distance in meters, `none` when the
request fails (embedding of `RouteOptimiser.get_distance`, lines 41-69). -/
abbrev Oracle := String → String → Option Nat

/-- Route oracle: waypoint list → list of (end address, leg distance) legs,
`[]` on failure (embedding of `RouteOptimiser.get_optimised_route`,
lines 71-110). -/
abbrev RouteO := List String → List (String × Nat)

/-- One iteration of the inner loop of `assign_postcodes_to_warehouses`
(lines 159-164): the pair `(min_distance, nearest_warehouse)` starts as
`(inf, None)` — embedded as `none` — and is replaced by `(d, w)` whenever the
oracle has a value `d` for `w` that is strictly below the current minimum. -/
def nearestStep (dist : Oracle) (p : String) (acc : Option (Nat × String))
    (w : String) : Option (Nat × String) :=
  match dist w p with
  | none => acc
  | some d =>
    match acc with
    | none => some (d, w)
    | some (m, nw) => if d < m then some (d, w) else some (m, nw)

/-- The inner loop of `assign_postcodes_to_warehouses` (lines 155-164): the
final `(min_distance, nearest_warehouse)` pair for one postcode, or `none`
when no warehouse had an available distance. -/
def nearestWarehouse (dist : Oracle) (warehouses : List String) (p : String) :
    Option (Nat × String) :=
  warehouses.foldl (nearestStep dist p) none

/-- Lines 166-170: `if nearest_warehouse:` is a Python truthiness test, false
both for `None` and for the empty string, so the postcode is appended to
`nearest_warehouse`'s list only when that is a non-empty string, and to
`warehouses[0]`'s list otherwise.  (`warehouses[0]` on an empty list raises in
Python; the claims all assume a non-empty warehouse list, and `headD ""` is
only ever used under that assumption.) -/
def chosenWarehouse (dist : Oracle) (warehouses : List String) (p : String) :
    String :=
  match nearestWarehouse dist warehouses p with
  | some (_, nw) => if nw = "" then warehouses.headD "" else nw
  | none => warehouses.headD ""

/-- Appending `v` to the list stored under key `k` of a dict embedded as a
total function (line 167 / line 170). -/
def updateDict (d : String → List String) (k : String) (v : String) :
    String → List String :=
  fun w => if w = k then d w ++ [v] else d w

/-- `assign_postcodes_to_warehouses` (lines 137-172), as the final dict,
embedded as a total function.  The dict starts with every warehouse mapped to
`[]` and each postcode is appended, in input order, to the list of its chosen
warehouse; a string that is not a key of the Python dict is mapped to `[]`
here. -/
def assign_postcodes_to_warehouses (dist : Oracle)
    (warehouses postcodes : List String) : String → List String :=
  postcodes.foldl (fun d p => updateDict d (chosenWarehouse dist warehouses p) p)
    (fun _ => [])

/-- Key list of a Python dict built by `{w: [] for w in warehouses}`
(line 153): first occurrence of each warehouse, in input order. -/
def dictKeys : List String → List String
  | [] => []
  | w :: ws => w :: (dictKeys ws).filter (fun x => decide (x ≠ w))

-- Sanity checks of the embedding on concrete inputs.
example :
    nearestWarehouse (fun w _ => if w = "A" then some 5 else some 3)
      ["A", "B"] "p" = some (3, "B") := by decide
example :
    chosenWarehouse (fun w _ => if w = "A" then some 5 else some 3)
      ["A", "B"] "p" = "B" := by decide
example :
    assign_postcodes_to_warehouses (fun _ _ => none) ["A", "B"] ["p", "q"] "A"
      = ["p", "q"] := by decide
example : dictKeys ["A", "B", "A"] = ["A", "B"] := by decide

/-! ## Fleet allocation (`main`, lines 253-266) -/

/-- Python 3's `round` on a real value: round half to even (banker's
rounding), i.e. `⌊q⌋` when the fractional part is below one half, `⌊q⌋ + 1`
when it is above, and the even endpoint on an exact half.  The allocation
arithmetic of `main` happens in IEEE doubles; at every input appearing in the
claims the double computation and the exact rational computation round to the
same integer, so the embedding works over `ℚ`. -/
def pythonRound (q : ℚ) : ℤ :=
  if q - ⌊q⌋ < 1 / 2 then ⌊q⌋
  else if 1 / 2 < q - ⌊q⌋ then ⌊q⌋ + 1
  else if ⌊q⌋ % 2 = 0 then ⌊q⌋ else ⌊q⌋ + 1

/-- Line 258-260: the raw per-warehouse truck count
`max(1, round(assigned_count / total_postcodes * total_trucks))`.
`counts w` is `len(warehouse_assignments[w])`, `totalP` is
`len(postcodes)` and `fleet` is `total_trucks`. -/
def trucksPerWarehouseRaw (counts : String → Nat) (totalP fleet : Nat)
    (w : String) : ℤ :=
  max 1 (pythonRound ((counts w : ℚ) / (totalP : ℚ) * (fleet : ℚ)))

/-- Line 263: `sum(trucks_per_warehouse.values())` — the dict has key list
`dictKeys warehouses` (duplicate warehouses collapse onto one key). -/
def allocSum (counts : String → Nat) (totalP fleet : Nat)
    (warehouses : List String) : ℤ :=
  ((dictKeys warehouses).map (trucksPerWarehouseRaw counts totalP fleet)).sum

/-- Line 263: `trucks_diff = total_trucks - sum(trucks_per_warehouse.values())`. -/
def trucksDiff (counts : String → Nat) (totalP fleet : Nat)
    (warehouses : List String) : ℤ :=
  (fleet : ℤ) - allocSum counts totalP fleet warehouses

/-- Line 265: `max(warehouses, key=lambda w: len(warehouse_assignments[w]))`.
Python's `max` returns the first element attaining the maximal key: the
running best is replaced only on a strictly greater key. -/
def largerWarehouse (counts : String → Nat) (w₀ : String) (rest : List String) :
    String :=
  rest.foldl (fun best w => if counts best < counts w then w else best) w₀

/-- Lines 257-266: the final `trucks_per_warehouse` dict, as a total
function: the raw allocation, plus — when `trucks_diff != 0` — the whole
signed remainder added to the first warehouse with the largest assigned
count.  The warehouse list is passed as `w₀ :: rest` (it is non-empty in
`main`, and Python's `max` raises on an empty list). -/
def trucks_per_warehouse (counts : String → Nat) (totalP fleet : Nat)
    (w₀ : String) (rest : List String) (w : String) : ℤ :=
  let raw := trucksPerWarehouseRaw counts totalP fleet w
  let diff := trucksDiff counts totalP fleet (w₀ :: rest)
  if diff ≠ 0 ∧ w = largerWarehouse counts w₀ rest then raw + diff else raw

-- Sanity checks: banker's rounding and the two spec scenarios' arithmetic.
example : pythonRound (3 / 2 : ℚ) = 2 := by norm_num [pythonRound]
example : pythonRound (1 / 2 : ℚ) = 0 := by norm_num [pythonRound]
example : pythonRound (5 / 2 : ℚ) = 2 := by norm_num [pythonRound]
example : pythonRound (-1 / 2 : ℚ) = 0 := by norm_num [pythonRound]
example : pythonRound (20 / 3 : ℚ) = 7 := by norm_num [pythonRound]
example : pythonRound (10 / 3 : ℚ) = 3 := by norm_num [pythonRound]
example : pythonRound (6 : ℚ) = 6 := by norm_num [pythonRound]

/-! ## Load partitioning (`divide_postcodes_among_trucks`, lines 206-223) -/

/-- `trucks[t].append(pc)` on a `defaultdict(list)` embedded as an
association list: append to the existing entry for `t`, or create the entry
at the end (insertion order) when absent. -/
def addToBucket : List (Nat × List String) → Nat → String →
    List (Nat × List String)
  | [], t, pc => [(t, [pc])]
  | (k, l) :: rest, t, pc =>
    if k = t then (k, l ++ [pc]) :: rest else (k, l) :: addToBucket rest t pc

/-- `divide_postcodes_among_trucks` (lines 206-223): the i-th postcode
(0-indexed, via `enumerate`) is appended to the bucket of truck
`i % num_trucks`.  (Python raises `ZeroDivisionError` when `num_trucks = 0`;
the claims only concern positive truck counts.) -/
def divide_postcodes_among_trucks (postcodes : List String) (numTrucks : Nat) :
    List (Nat × List String) :=
  postcodes.enum.foldl (fun items ip => addToBucket items (ip.1 % numTrucks) ip.2)
    []

/-- The load of truck `t` in the result of `divide_postcodes_among_trucks`
(`[]` when the truck received nothing, matching `defaultdict`'s default). -/
def truckBucket (postcodes : List String) (numTrucks t : Nat) : List String :=
  ((divide_postcodes_among_trucks postcodes numTrucks).lookup t).getD []

example : divide_postcodes_among_trucks ["a", "b", "c"] 2
    = [(0, ["a", "c"]), (1, ["b"])] := by decide
example : truckBucket ["a", "b", "c"] 2 1 = ["b"] := by decide
example : truckBucket ["a", "b", "c"] 2 5 = [] := by decide

/-! ## Route aggregation (`optimise_routes_for_trucks`, lines 174-203, and
`main`'s totals, lines 269-299) -/

/-- The per-truck record built on lines 198-201: the route's resolved end
addresses and the total distance in kilometers. -/
structure TruckRoute where
  route : List String
  total_distance : ℚ
  deriving DecidableEq

/-- `optimise_routes_for_trucks` (lines 174-203): for each truck with a
non-empty stop list, query the route oracle on
`[warehouse] + stops + [warehouse]`, sum the leg distances (0 when the oracle
returned no legs) and record the leg end addresses plus the total divided by
1000.  Trucks with an empty stop list are skipped (`continue`); insertion
order of the dict is the iteration order of `trucks`. -/
def optimise_routes_for_trucks (route : RouteO)
    (trucks : List (Nat × List String)) (warehouse : String) :
    List (Nat × TruckRoute) :=
  trucks.foldl
    (fun acc t =>
      if t.2.isEmpty then acc
      else
        let info := route ([warehouse] ++ t.2 ++ [warehouse])
        let total : ℚ :=
          if info.isEmpty then 0 else ((info.map (fun leg => leg.2)).sum : Nat)
        acc ++ [(t.1, ⟨info.map (fun leg => leg.1), total / 1000⟩)])
    []

/-- Warning-level log events emitted by `optimise_routes_for_trucks`: its
body (lines 189-203) contains no logging statement at all — in particular the
`route_info == []` degradation path sets `total_distance = 0` silently — so
the number of emitted warning-level events is zero for every input. -/
def optimiseWarnings (_route : RouteO) (_trucks : List (Nat × List String))
    (_warehouse : String) : Nat := 0

/-- Log events emitted by `assign_postcodes_to_warehouses`: its body
(lines 152-172) contains no logging statement — the fallback branch on
lines 168-170 is a bare `append` under a comment — so the number of emitted
events is zero for every input. -/
def assignLogCount (_dist : Oracle) (_warehouses _postcodes : List String) :
    Nat := 0

/-- `warehouse_total_distance` for one warehouse (`main`, lines 291-299):
the sum of the `total_distance` fields of the warehouse's truck reports. -/
def warehouseTotal (route : RouteO) (trucks : List (Nat × List String))
    (warehouse : String) : ℚ :=
  (optimise_routes_for_trucks route trucks warehouse).foldl
    (fun acc td => acc + td.2.total_distance) 0

/-- `grand_total_distance` (`main`, lines 269-299): iterate over the
warehouses, skip a warehouse whose assigned list is empty (line 277-278),
otherwise split its postcodes over its trucks and add its warehouse total.
`numTrucks` abstracts the vehicle count taken from `trucks_per_warehouse`. -/
def grandTotal (route : RouteO) (assignments : String → List String)
    (numTrucks : String → Nat) (warehouses : List String) : ℚ :=
  warehouses.foldl
    (fun acc w =>
      if (assignments w).isEmpty then acc
      else acc + warehouseTotal route
        (divide_postcodes_among_trucks (assignments w) (numTrucks w)) w)
    0

example :
    optimise_routes_for_trucks (fun _ => [("s", 500)]) [(0, ["a"]), (1, [])] "W"
      = [(0, ⟨["s"], 1 / 2⟩)] := by
  norm_num [optimise_routes_for_trucks]
example :
    optimise_routes_for_trucks (fun _ => []) [(0, ["a"])] "W"
      = [(0, ⟨[], 0⟩)] := by
  norm_num [optimise_routes_for_trucks]

/-! ## Lemmas about the warehouse assignment -/

/-- The minimum-tracking fold only ever reports a warehouse from the list,
with its oracle distance. -/
theorem nearestWarehouse_mem (dist : Oracle) (p : String) :
    ∀ (ws : List String) (acc : Option (Nat × String)) (d : Nat) (w : String),
      ws.foldl (nearestStep dist p) acc = some (d, w) →
      acc = some (d, w) ∨ (dist w p = some d ∧ w ∈ ws) := by
  intro ws
  induction ws with
  | nil => intro acc d w h; exact Or.inl h
  | cons w' ws ih =>
    intro acc d w h
    rcases ih (nearestStep dist p acc w') d w h with h' | h'
    · unfold nearestStep at h'
      rcases hd : dist w' p with _ | d'
      · rw [hd] at h'; exact Or.inl h'
      · rw [hd] at h'
        rcases acc with _ | ⟨m, nw⟩
        · rcases h' with ⟨rfl, rfl⟩
          exact Or.inr ⟨hd, List.mem_cons_self _ _⟩
        · by_cases hlt : d' < m
          · simp only [hlt, if_pos] at h'
            rcases h' with ⟨rfl, rfl⟩
            exact Or.inr ⟨hd, List.mem_cons_self _ _⟩
          · simp only [hlt, if_neg, if_false] at h'
            exact Or.inl (by rw [h'])
    · exact Or.inr ⟨h'.1, List.mem_cons_of_mem _ h'.2⟩

/-- The chosen warehouse of any postcode is one of the input warehouses. -/
theorem chosenWarehouse_mem (dist : Oracle) (w₀ : String) (rest : List String)
    (p : String) : chosenWarehouse dist (w₀ :: rest) p ∈ w₀ :: rest := by
  unfold chosenWarehouse
  rcases h : nearestWarehouse dist (w₀ :: rest) p with _ | ⟨d, nw⟩
  · exact List.mem_cons_self _ _
  · by_cases he : nw = ""
    · simp only [he, if_pos, List.headD]
      exact List.mem_cons_self _ _
    · simp only [he, if_neg, if_false]
      rcases nearestWarehouse_mem dist p (w₀ :: rest) none d nw h with h' | h'
      · cases h'
      · exact h'.2

/-- The final assignment dict maps `w` to the postcodes (in input order)
whose chosen warehouse is `w`. -/
theorem assign_eq_filter (dist : Oracle) (ws : List String) :
    ∀ (ps : List String) (d : String → List String) (w : String),
      (ps.foldl (fun d p => updateDict d (chosenWarehouse dist ws p) p) d) w
        = d w ++ ps.filter (fun p => decide (chosenWarehouse dist ws p = w)) := by
  intro ps
  induction ps with
  | nil => intro d w; simp
  | cons p ps ih =>
    intro d w
    simp only [List.foldl_cons, List.filter_cons]
    by_cases hc : chosenWarehouse dist ws p = w
    · rw [ih]
      simp [updateDict, hc, updateDict]
    · rw [ih]
      simp [updateDict, hc, Ne.symm hc]

/-- `assign_postcodes_to_warehouses` as a filter of the postcode list. -/
theorem assign_postcodes_eq_filter (dist : Oracle) (ws ps : List String)
    (w : String) :
    assign_postcodes_to_warehouses dist ws ps w
      = ps.filter (fun p => decide (chosenWarehouse dist ws p = w)) := by
  unfold assign_postcodes_to_warehouses
  rw [assign_eq_filter]
  simp

/-- Membership in the Python-dict key list. -/
theorem mem_dictKeys (x : String) : ∀ ws : List String,
    x ∈ dictKeys ws ↔ x ∈ ws := by
  intro ws
  induction ws with
  | nil => simp [dictKeys]
  | cons w ws ih =>
    simp only [dictKeys, List.mem_cons, List.mem_filter, ih,
      decide_eq_true_eq]
    constructor
    · rintro (rfl | ⟨h, _⟩)
      · exact Or.inl rfl
      · exact Or.inr h
    · rintro (rfl | h)
      · exact Or.inl rfl
      · by_cases hx : x = w
        · exact Or.inl hx
        · exact Or.inr ⟨h, hx⟩

/-- The Python-dict key list has no duplicates. -/
theorem dictKeys_nodup : ∀ ws : List String, (dictKeys ws).Nodup := by
  intro ws
  induction ws with
  | nil => simp [dictKeys]
  | cons w ws ih =>
    refine List.Nodup.cons ?_ (List.Nodup.filter _ ih)
    intro hmem
    rcases List.mem_filter.1 hmem with ⟨_, hne⟩
    exact (of_decide_eq_true hne) rfl

/-- Splitting a list into the fibers of a function over a duplicate-free key
list covering its image is a permutation of the list. -/
theorem perm_join_filter {κ α : Type} [DecidableEq κ] (f : α → κ) :
    ∀ (ks : List κ) (l : List α), ks.Nodup → (∀ a ∈ l, f a ∈ ks) →
      ((ks.map (fun t => l.filter (fun a => decide (f a = t)))).join).Perm l := by
  intro ks
  induction ks with
  | nil =>
    intro l _ hcov
    cases l with
    | nil => simp
    | cons a l => exact absurd (hcov a (List.mem_cons_self _ _)) (by simp)
  | cons k ks ih =>
    intro l hnd hcov
    rcases List.nodup_cons.1 hnd with ⟨hk, hnd'⟩
    simp only [List.map_cons, List.join_cons]
    have hfib : ∀ t ∈ ks,
        l.filter (fun a => decide (f a = t))
          = (l.filter (fun a => !decide (f a = k))).filter
              (fun a => decide (f a = t)) := by
      intro t ht
      have ht' : t ≠ k := fun h => hk (h ▸ ht)
      rw [List.filter_filter]
      apply List.filter_congr
      intro a _
      by_cases hfa : f a = t
      · have hak : f a ≠ k := fun h => ht' (hfa ▸ h ▸ rfl)
        simp [hfa, hak, ht']
      · simp [hfa]
    have hcov' : ∀ a ∈ l.filter (fun a => !decide (f a = k)), f a ∈ ks := by
      intro a ha
      rcases List.mem_filter.1 ha with ⟨hal, hne⟩
      rcases List.mem_cons.1 (hcov a hal) with h | h
      · simp [h] at hne
      · exact h
    have hperm := ih (l.filter (fun a => !decide (f a = k))) hnd' hcov'
    have hmaps :
        ks.map (fun t => l.filter (fun a => decide (f a = t)))
          = ks.map (fun t => (l.filter (fun a => !decide (f a = k))).filter
              (fun a => decide (f a = t))) :=
      List.map_congr_left hfib
    rw [hmaps]
    exact (List.Perm.append_left _ hperm).trans (List.filter_append_perm _ l)

/-- C1: for every non-empty warehouse list and every location list, the
assignment partitions the input locations: the concatenation of the
per-warehouse lists (over the dict's key list) is a permutation of the input
location list — no omissions and no duplicates — and no location occurrence
lies in two different warehouses' lists. -/
theorem C1_partition (dist : Oracle) (w₀ : String) (rest ps : List String) :
    (((dictKeys (w₀ :: rest)).map
        (assign_postcodes_to_warehouses dist (w₀ :: rest) ps)).join).Perm ps ∧
    (∀ p w w', p ∈ assign_postcodes_to_warehouses dist (w₀ :: rest) ps w →
       p ∈ assign_postcodes_to_warehouses dist (w₀ :: rest) ps w' → w = w') := by
  constructor
  · have hmap :
        (dictKeys (w₀ :: rest)).map
            (assign_postcodes_to_warehouses dist (w₀ :: rest) ps)
          = (dictKeys (w₀ :: rest)).map
            (fun t => ps.filter
              (fun p => decide (chosenWarehouse dist (w₀ :: rest) p = t))) :=
      List.map_congr_left
        (fun t _ => assign_postcodes_eq_filter dist (w₀ :: rest) ps t)
    rw [hmap]
    exact perm_join_filter (chosenWarehouse dist (w₀ :: rest)) _ ps
      (dictKeys_nodup _)
      (fun p _ => (mem_dictKeys _ _).2 (chosenWarehouse_mem dist w₀ rest p))
  · intro p w w' hw hw'
    rw [assign_postcodes_eq_filter] at hw hw'
    have h1 := of_decide_eq_true (List.mem_filter.1 hw).2
    have h2 := of_decide_eq_true (List.mem_filter.1 hw').2
    rw [← h1, ← h2]

/-! ## The nearest-warehouse selection against the spec's wording -/

/-- Following the spec's words ("track the minimum observed distance and its
warehouse. Ties: the first warehouse achieving the minimum (by input order)
wins"): `w` has available distance `d` for `p`, no warehouse has a smaller
available distance, and every warehouse strictly before `w`'s occurrence has
either no distance or a strictly larger one.  This is the specification-side
description of the selection, to be compared with the source's loop. -/
def FirstMinWarehouse (dist : Oracle) (ws : List String) (p w : String)
    (d : Nat) : Prop :=
  dist w p = some d ∧
  (∀ w' ∈ ws, ∀ d', dist w' p = some d' → d ≤ d') ∧
  ∃ l₁ l₂, ws = l₁ ++ w :: l₂ ∧
    ∀ w' ∈ l₁, ∀ d', dist w' p = some d' → d < d'

/-- If every distance seen so far is strictly above `d`, the tracked minimum
stays strictly above `d` (or absent). -/
theorem nearestFold_above (dist : Oracle) (p : String) (d : Nat) :
    ∀ (l : List String) (acc : Option (Nat × String)),
      (∀ w' ∈ l, ∀ d', dist w' p = some d' → d < d') →
      (acc = none ∨ ∃ m x, acc = some (m, x) ∧ d < m) →
      (l.foldl (nearestStep dist p) acc = none ∨
        ∃ m x, l.foldl (nearestStep dist p) acc = some (m, x) ∧ d < m) := by
  intro l
  induction l with
  | nil => intro acc _ h; simpa using h
  | cons w' l ih =>
    intro acc hl hacc
    simp only [List.foldl_cons]
    apply ih
    · intro w hw d' hd'
      exact hl w (List.mem_cons_of_mem _ hw) d' hd'
    · rcases hd : dist w' p with _ | d'
      · simpa [nearestStep, hd] using hacc
      · have hdd' : d < d' := hl w' (List.mem_cons_self _ _) d' hd
        rcases hacc with h | ⟨m, x, h, hm⟩
        · rw [h]
          exact Or.inr ⟨d', w', by simp [nearestStep, hd], hdd'⟩
        · rw [h]
          by_cases hlt : d' < m
          · exact Or.inr ⟨d', w', by simp [nearestStep, hd, hlt], hdd'⟩
          · exact Or.inr ⟨m, x, by simp [nearestStep, hd, hlt], hm⟩

/-- Once the tracked minimum is `(d, w)` and no remaining warehouse has a
strictly smaller distance, the fold keeps `(d, w)` (the comparison on
line 162 is strict, so later ties do not replace it). -/
theorem nearestFold_keep (dist : Oracle) (p : String) (d : Nat) (w : String) :
    ∀ l : List String,
      (∀ w' ∈ l, ∀ d', dist w' p = some d' → d ≤ d') →
      l.foldl (nearestStep dist p) (some (d, w)) = some (d, w) := by
  intro l
  induction l with
  | nil => intro _; rfl
  | cons w' l ih =>
    intro hl
    simp only [List.foldl_cons]
    have hstep : nearestStep dist p (some (d, w)) w' = some (d, w) := by
      rcases hd : dist w' p with _ | d'
      · simp [nearestStep, hd]
      · have : ¬ d' < d := not_lt.2 (hl w' (List.mem_cons_self _ _) d' hd)
        simp [nearestStep, hd, this]
    rw [hstep]
    exact ih fun w'' hw'' d' hd' => hl w'' (List.mem_cons_of_mem _ hw'') d' hd'

/-- The source's loop selects exactly the spec's first minimal warehouse. -/
theorem nearestWarehouse_of_firstMin (dist : Oracle) (ws : List String)
    (p w : String) (d : Nat) (h : FirstMinWarehouse dist ws p w d) :
    nearestWarehouse dist ws p = some (d, w) := by
  obtain ⟨hw, hmin, l₁, l₂, rfl, hl₁⟩ := h
  unfold nearestWarehouse
  rw [List.foldl_append]
  simp only [List.foldl_cons]
  have hl₂ : ∀ w' ∈ l₂, ∀ d', dist w' p = some d' → d ≤ d' := by
    intro w' hw' d' hd'
    exact hmin w' (List.mem_append_right _ (List.mem_cons_of_mem _ hw')) d' hd'
  rcases nearestFold_above dist p d l₁ none hl₁ (Or.inl rfl) with hnone |
      ⟨m, x, hsome, hm⟩
  · rw [hnone]
    have hstep : nearestStep dist p none w = some (d, w) := by
      simp [nearestStep, hw]
    rw [hstep]
    exact nearestFold_keep dist p d w l₂ hl₂
  · rw [hsome]
    have hstep : nearestStep dist p (some (m, x)) w = some (d, w) := by
      simp [nearestStep, hw, hm]
    rw [hstep]
    exact nearestFold_keep dist p d w l₂ hl₂

/-- When no warehouse has an available distance the loop reports nothing. -/
theorem nearestWarehouse_none (dist : Oracle) (p : String) :
    ∀ ws : List String, (∀ w ∈ ws, dist w p = none) →
      nearestWarehouse dist ws p = none := by
  intro ws
  induction ws with
  | nil => intro _; rfl
  | cons w ws ih =>
    intro hall
    unfold nearestWarehouse
    simp only [List.foldl_cons]
    have hstep : nearestStep dist p none w = none := by
      simp [nearestStep, hall w (List.mem_cons_self _ _)]
    rw [hstep]
    exact ih fun w' hw' => hall w' (List.mem_cons_of_mem _ hw')

/-- Oracle for the C2 counterexample: the empty-string warehouse is strictly
nearest to every postcode, warehouse `"A"` is second. -/
def distC2 : Oracle := fun w _ =>
  if w = "A" then some 2 else if w = "" then some 1 else none

/-- C2 as stated is false: with warehouses `["A", ""]`, the empty-string
warehouse is the unique minimum-distance warehouse for `"p"` (distance 1
versus 2), yet the truthiness test on line 166 treats it as `None` and the
postcode is assigned to the fallback `warehouses[0] = "A"`, not to `""`. -/
theorem C2_counterexample :
    FirstMinWarehouse distC2 ["A", ""] "p" "" 1 ∧
    assign_postcodes_to_warehouses distC2 ["A", ""] ["p"] "" = [] ∧
    assign_postcodes_to_warehouses distC2 ["A", ""] ["p"] "A" = ["p"] :=
  ⟨⟨by decide, by decide, ["A"], [], rfl, by decide⟩, by decide, by decide⟩

/-- C2, amended: a location with at least one available distance is assigned
to the first warehouse (in input order) achieving the minimal returned
distance, **provided that warehouse's identifier is not the empty string**
(an empty-string minimum fails the truthiness test of line 166 and falls back
to `warehouses[0]` instead). -/
theorem C2_nearest_amended (dist : Oracle) (ws ps : List String)
    (p w : String) (d : Nat) (hfm : FirstMinWarehouse dist ws p w d)
    (hw : w ≠ "") (hp : p ∈ ps) :
    chosenWarehouse dist ws p = w ∧
    p ∈ assign_postcodes_to_warehouses dist ws ps w := by
  have hn := nearestWarehouse_of_firstMin dist ws p w d hfm
  have hch : chosenWarehouse dist ws p = w := by
    unfold chosenWarehouse
    rw [hn]
    simp [hw]
  refine ⟨hch, ?_⟩
  rw [assign_postcodes_eq_filter]
  exact List.mem_filter.2 ⟨hp, by simp [hch]⟩

/-- Oracle for the C2 witness: warehouse `"A"` is nearest, `"B"` second. -/
def distW2 : Oracle := fun w _ =>
  if w = "A" then some 1 else if w = "B" then some 2 else none

/-- Witness for the amended C2 at a concrete input. -/
theorem C2_witness :
    FirstMinWarehouse distW2 ["A", "B"] "p" "A" 1 ∧ ("A" : String) ≠ "" ∧
    "p" ∈ (["p", "q"] : List String) ∧
    (chosenWarehouse distW2 ["A", "B"] "p" = "A" ∧
      "p" ∈ assign_postcodes_to_warehouses distW2 ["A", "B"] ["p", "q"] "A") :=
  ⟨⟨by decide, by decide, [], ["B"], rfl, by decide⟩, by decide, by decide,
    C2_nearest_amended distW2 ["A", "B"] ["p", "q"] "p" "A" 1
      ⟨by decide, by decide, [], ["B"], rfl, by decide⟩ (by decide) (by decide)⟩

/-- Oracle for the C3 counterexample, failing run: every distance request
fails. -/
def distC3fail : Oracle := fun _ _ => none

/-- Oracle for the C3 counterexample, healthy run: warehouse `"A"` has a
distance for every postcode. -/
def distC3ok : Oracle := fun w _ => if w = "A" then some 5 else none

/-- C3 as stated is false in its observability half: the all-unavailable run
(which takes the fallback branch for `"p"`) and a healthy run (which assigns
`"p"` to `"A"` by distance) produce identical assignment dicts, and the
fallback branch (lines 168-170) emits no log event and increments no counter,
so the fallback event is not observable to the caller. -/
theorem C3_counterexample :
    (∀ w, w ∈ (["A", "B"] : List String) → distC3fail w "p" = none) ∧
    nearestWarehouse distC3ok ["A", "B"] "p" = some (5, "A") ∧
    assign_postcodes_to_warehouses distC3fail ["A", "B"] ["p"] "A"
      = assign_postcodes_to_warehouses distC3ok ["A", "B"] ["p"] "A" ∧
    assign_postcodes_to_warehouses distC3fail ["A", "B"] ["p"] "B"
      = assign_postcodes_to_warehouses distC3ok ["A", "B"] ["p"] "B" ∧
    assignLogCount distC3fail ["A", "B"] ["p"] = 0 :=
  ⟨by decide, by decide, by decide, by decide, rfl⟩

/-- C3, amended: a location for which every warehouse's distance request
fails is assigned to the first warehouse of the input list; the fallback is
not logged or counted (the function emits no log events), so it is not
separately observable to the caller. -/
theorem C3_fallback_amended (dist : Oracle) (w₀ : String)
    (rest ps : List String) (p : String)
    (hall : ∀ w ∈ w₀ :: rest, dist w p = none) (hp : p ∈ ps) :
    chosenWarehouse dist (w₀ :: rest) p = w₀ ∧
    p ∈ assign_postcodes_to_warehouses dist (w₀ :: rest) ps w₀ ∧
    assignLogCount dist (w₀ :: rest) ps = 0 := by
  have hn := nearestWarehouse_none dist p (w₀ :: rest) hall
  have hch : chosenWarehouse dist (w₀ :: rest) p = w₀ := by
    unfold chosenWarehouse
    rw [hn]
    rfl
  refine ⟨hch, ?_, rfl⟩
  rw [assign_postcodes_eq_filter]
  exact List.mem_filter.2 ⟨hp, by simp [hch]⟩

/-- Witness for the amended C3 at a concrete input. -/
theorem C3_witness :
    (∀ w, w ∈ (["A", "B"] : List String) → distC3fail w "p" = none) ∧
    "p" ∈ (["p"] : List String) ∧
    (chosenWarehouse distC3fail ["A", "B"] "p" = "A" ∧
      "p" ∈ assign_postcodes_to_warehouses distC3fail ["A", "B"] ["p"] "A" ∧
      assignLogCount distC3fail ["A", "B"] ["p"] = 0) :=
  ⟨by decide, by decide,
    C3_fallback_amended distC3fail "A" ["B"] ["p"] "p" (by decide) (by decide)⟩

/-- C10: when the minimum-distance warehouse is the empty string, the
truthiness test on line 166 sends the location to `warehouses[0]` instead,
and the empty-string warehouse can be the chosen warehouse only when it is
itself `warehouses[0]` (i.e. never through the nearest-distance branch). -/
theorem C10_empty_string_warehouse (dist : Oracle) (w₀ : String)
    (rest ps : List String) (p : String) (d : Nat)
    (hn : nearestWarehouse dist (w₀ :: rest) p = some (d, "")) (hp : p ∈ ps) :
    chosenWarehouse dist (w₀ :: rest) p = w₀ ∧
    p ∈ assign_postcodes_to_warehouses dist (w₀ :: rest) ps w₀ ∧
    (∀ q : String, chosenWarehouse dist (w₀ :: rest) q = "" → w₀ = "") := by
  have hch : chosenWarehouse dist (w₀ :: rest) p = w₀ := by
    unfold chosenWarehouse
    rw [hn]
    simp
  refine ⟨hch, ?_, ?_⟩
  · rw [assign_postcodes_eq_filter]
    exact List.mem_filter.2 ⟨hp, by simp [hch]⟩
  · intro q hq
    unfold chosenWarehouse at hq
    rcases hnq : nearestWarehouse dist (w₀ :: rest) q with _ | ⟨d', nw⟩
    · rw [hnq] at hq
      exact hq
    · rw [hnq] at hq
      by_cases he : nw = ""
      · simp [he] at hq
        exact hq
      · simp [he] at hq

/-! ## Lemmas about the fleet allocation -/

/-- Python's `max(..., key=...)` over a fold returns one of the candidates. -/
theorem largerWarehouse_pick_mem (counts : String → Nat) :
    ∀ (rest : List String) (best : String),
      rest.foldl (fun best w => if counts best < counts w then w else best) best
        ∈ best :: rest := by
  intro rest
  induction rest with
  | nil => intro best; exact List.mem_cons_self _ _
  | cons w rest ih =>
    intro best
    simp only [List.foldl_cons]
    by_cases h : counts best < counts w
    · rw [if_pos h]
      exact List.mem_cons_of_mem _ (ih w)
    · rw [if_neg h]
      rcases List.mem_cons.1 (ih best) with h' | h'
      · rw [h']
        exact List.mem_cons_self _ _
      · exact List.mem_cons_of_mem _ (List.mem_cons_of_mem _ h')

/-- `largerWarehouse` is one of the warehouses. -/
theorem largerWarehouse_mem (counts : String → Nat) (w₀ : String)
    (rest : List String) : largerWarehouse counts w₀ rest ∈ w₀ :: rest :=
  largerWarehouse_pick_mem counts rest w₀

/-- Adding `c` at exactly one key of a duplicate-free key list adds `c` to
the sum. -/
theorem sum_map_add_ite (f : String → ℤ) (c : ℤ) (k₀ : String) :
    ∀ ks : List String, ks.Nodup → k₀ ∈ ks →
      (ks.map (fun k => f k + if k = k₀ then c else 0)).sum
        = (ks.map f).sum + c := by
  intro ks
  induction ks with
  | nil => intro _ h; cases h
  | cons k ks ih =>
    intro hnd hmem
    rcases List.nodup_cons.1 hnd with ⟨hk, hnd'⟩
    simp only [List.map_cons, List.sum_cons]
    rcases List.mem_cons.1 hmem with heq | hmem'
    · have htail :
          ks.map (fun x => f x + if x = k₀ then c else 0) = ks.map f :=
        List.map_congr_left (fun x hx => by
          have hx' : x ≠ k₀ := fun h => hk (heq ▸ h ▸ hx)
          simp [hx'])
      rw [htail, if_pos heq.symm]
      ring
    · have hkne : k ≠ k₀ := fun h => hk (h ▸ hmem')
      rw [if_neg hkne, ih hnd' hmem']
      ring

/-- C4: for every assignment-count function with at least one assigned
location (positive denominator) and every fleet size, the per-warehouse
counts after the remainder patch sum to exactly the fleet size. -/
theorem C4_alloc_sum (counts : String → Nat) (totalP fleet : Nat)
    (w₀ : String) (rest : List String) (_hpos : 0 < totalP) :
    ((dictKeys (w₀ :: rest)).map
      (trucks_per_warehouse counts totalP fleet w₀ rest)).sum = fleet := by
  by_cases hdiff : trucksDiff counts totalP fleet (w₀ :: rest) = 0
  · have hpt : ∀ k, trucks_per_warehouse counts totalP fleet w₀ rest k
        = trucksPerWarehouseRaw counts totalP fleet k := by
      intro k
      simp [trucks_per_warehouse, hdiff]
    have : (dictKeys (w₀ :: rest)).map
        (trucks_per_warehouse counts totalP fleet w₀ rest)
        = (dictKeys (w₀ :: rest)).map
          (trucksPerWarehouseRaw counts totalP fleet) :=
      List.map_congr_left (fun k _ => hpt k)
    rw [this]
    have hzero := hdiff
    unfold trucksDiff allocSum at hzero
    omega
  · have hpt : ∀ k, trucks_per_warehouse counts totalP fleet w₀ rest k
        = trucksPerWarehouseRaw counts totalP fleet k
          + if k = largerWarehouse counts w₀ rest
            then trucksDiff counts totalP fleet (w₀ :: rest) else 0 := by
      intro k
      by_cases hk : k = largerWarehouse counts w₀ rest
      · simp [trucks_per_warehouse, hdiff, hk]
      · simp [trucks_per_warehouse, hdiff, hk]
    have hmap : (dictKeys (w₀ :: rest)).map
        (trucks_per_warehouse counts totalP fleet w₀ rest)
        = (dictKeys (w₀ :: rest)).map
          (fun k => trucksPerWarehouseRaw counts totalP fleet k
            + if k = largerWarehouse counts w₀ rest
              then trucksDiff counts totalP fleet (w₀ :: rest) else 0) :=
      List.map_congr_left (fun k _ => hpt k)
    rw [hmap, sum_map_add_ite _ _ _ _ (dictKeys_nodup _)
      ((mem_dictKeys _ _).2 (largerWarehouse_mem counts w₀ rest))]
    unfold trucksDiff allocSum
    ring

/-- Witness for C4 at a concrete input. -/
theorem C4_witness :
    0 < 2 ∧
    ((dictKeys ["A", "B"]).map
      (trucks_per_warehouse (fun _ => 1) 2 5 "A" ["B"])).sum = 5 :=
  ⟨by decide, C4_alloc_sum (fun _ => 1) 2 5 "A" ["B"] (by decide)⟩

/-- Oracle for the C5 counterexample: postcodes `p,q,r,s` are nearest to
warehouses `A,B,C,D` respectively; warehouses `E,F` are never nearest. -/
def distC5 : Oracle := fun w p =>
  if (w = "A" ∧ p = "p") ∨ (w = "B" ∧ p = "q") ∨ (w = "C" ∧ p = "r")
      ∨ (w = "D" ∧ p = "s")
  then some 1 else some 100

/-- Assigned-location counts of the C5 counterexample pipeline. -/
def countsC5 : String → Nat := fun w =>
  (assign_postcodes_to_warehouses distC5 ["A", "B", "C", "D", "E", "F"]
    ["p", "q", "r", "s"] w).length

/-- C5 as stated is false: with 6 warehouses, 4 locations assigned one each
to `A,B,C,D` and none to `E,F`, and fleet size 6 (≥ number of warehouses),
the raw counts are `max(1, round(1/4*6)) = 2` for `A..D` (banker's rounding
of 1.5) and `max(1, round(0)) = 1` for the empty warehouses `E,F` — so the
floor of 1 applies to zero-location warehouses too — and the remainder patch
adds `6 - 10 = -4` to `A`, leaving `A` with `-2` vehicles: not positive even
though `A` has an assigned location. -/
theorem C5_counterexample :
    countsC5 "A" = 1 ∧ countsC5 "E" = 0 ∧
    (["A", "B", "C", "D", "E", "F"] : List String).length ≤ 6 ∧
    trucksDiff countsC5 4 6 ["A", "B", "C", "D", "E", "F"] = -4 ∧
    trucks_per_warehouse countsC5 4 6 "A" ["B", "C", "D", "E", "F"] "A"
      = -2 ∧
    trucks_per_warehouse countsC5 4 6 "A" ["B", "C", "D", "E", "F"] "E"
      = 1 := by
  have hA : countsC5 "A" = 1 := by decide
  have hB : countsC5 "B" = 1 := by decide
  have hC : countsC5 "C" = 1 := by decide
  have hD : countsC5 "D" = 1 := by decide
  have hE : countsC5 "E" = 0 := by decide
  have hF : countsC5 "F" = 0 := by decide
  have hkeys : dictKeys ["A", "B", "C", "D", "E", "F"]
      = ["A", "B", "C", "D", "E", "F"] := by decide
  have rawOne : ∀ w, countsC5 w = 1 → trucksPerWarehouseRaw countsC5 4 6 w = 2 := by
    intro w hw
    rw [trucksPerWarehouseRaw, hw]
    norm_num [pythonRound]
  have rawZero : ∀ w, countsC5 w = 0 →
      trucksPerWarehouseRaw countsC5 4 6 w = 1 := by
    intro w hw
    rw [trucksPerWarehouseRaw, hw]
    norm_num [pythonRound]
  have hsum : allocSum countsC5 4 6 ["A", "B", "C", "D", "E", "F"] = 10 := by
    rw [allocSum, hkeys]
    simp only [List.map_cons, List.map_nil, List.sum_cons, List.sum_nil,
      rawOne "A" hA, rawOne "B" hB, rawOne "C" hC, rawOne "D" hD,
      rawZero "E" hE, rawZero "F" hF]
    norm_num
  have hdiff : trucksDiff countsC5 4 6 ["A", "B", "C", "D", "E", "F"] = -4 := by
    rw [trucksDiff, hsum]
    norm_num
  have hlarger : largerWarehouse countsC5 "A" ["B", "C", "D", "E", "F"]
      = "A" := by decide
  refine ⟨hA, hE, by decide, hdiff, ?_, ?_⟩
  · simp only [trucks_per_warehouse, hdiff, hlarger]
    rw [rawOne "A" hA]
    norm_num
  · simp only [trucks_per_warehouse, hdiff, hlarger]
    rw [if_neg (by simp), rawZero "E" hE]

/-- C5, amended: the floor of 1 applies to **every** warehouse, including
those with zero assigned locations, so every raw count is at least 1; after
the remainder patch every warehouse other than the (first) largest-count
warehouse keeps its raw count and hence stays at least 1.  (The patched
warehouse itself can drop to zero or below, as the counterexample shows, so
positivity of the full allocation does not hold.) -/
theorem C5_alloc_floor_amended (counts : String → Nat) (totalP fleet : Nat)
    (w₀ : String) (rest : List String)
    (_hfleet : (w₀ :: rest).length ≤ fleet) :
    (∀ w, 1 ≤ trucksPerWarehouseRaw counts totalP fleet w) ∧
    (∀ w ∈ dictKeys (w₀ :: rest), w ≠ largerWarehouse counts w₀ rest →
      1 ≤ trucks_per_warehouse counts totalP fleet w₀ rest w) := by
  constructor
  · intro w
    exact le_max_left 1 _
  · intro w _ hne
    have : trucks_per_warehouse counts totalP fleet w₀ rest w
        = trucksPerWarehouseRaw counts totalP fleet w := by
      simp [trucks_per_warehouse, hne]
    rw [this]
    exact le_max_left 1 _

/-- Witness for the amended C5 at a concrete input. -/
theorem C5_witness :
    (["A", "B"] : List String).length ≤ 5 ∧
    ((∀ w, 1 ≤ trucksPerWarehouseRaw (fun _ => 1) 2 5 w) ∧
      (∀ w ∈ dictKeys ["A", "B"], w ≠ largerWarehouse (fun _ => 1) "A" ["B"] →
        1 ≤ trucks_per_warehouse (fun _ => 1) 2 5 "A" ["B"] w)) :=
  ⟨by decide, C5_alloc_floor_amended (fun _ => 1) 2 5 "A" ["B"] (by decide)⟩

/-- Oracle for the C6 scenarios: locations `a,b,c,d` are nearer to `X`,
locations `e,f` nearer to `Y`. -/
def distC6 : Oracle := fun w p =>
  if p = "e" ∨ p = "f" then (if w = "Y" then some 1 else some 2)
  else (if w = "X" then some 1 else some 2)

/-- Assigned-location counts of the C6 scenario pipeline. -/
def countsC6 : String → Nat := fun w =>
  (assign_postcodes_to_warehouses distC6 ["X", "Y"]
    ["a", "b", "c", "d", "e", "f"] w).length

/-- C6 (spec scenarios A and B): with 4 of the 6 locations assigned to `X`
and 2 to `Y`, a fleet of 10 allocates `{X: 7, Y: 3}` and a fleet of 9
allocates `{X: 6, Y: 3}`, in both cases with a zero remainder so the patch
is a no-op. -/
theorem C6_scenarios :
    countsC6 "X" = 4 ∧ countsC6 "Y" = 2 ∧
    trucksDiff countsC6 6 10 ["X", "Y"] = 0 ∧
    trucks_per_warehouse countsC6 6 10 "X" ["Y"] "X" = 7 ∧
    trucks_per_warehouse countsC6 6 10 "X" ["Y"] "Y" = 3 ∧
    trucksDiff countsC6 6 9 ["X", "Y"] = 0 ∧
    trucks_per_warehouse countsC6 6 9 "X" ["Y"] "X" = 6 ∧
    trucks_per_warehouse countsC6 6 9 "X" ["Y"] "Y" = 3 := by
  have hX : countsC6 "X" = 4 := by decide
  have hY : countsC6 "Y" = 2 := by decide
  have hkeys : dictKeys ["X", "Y"] = ["X", "Y"] := by decide
  have rawX10 : trucksPerWarehouseRaw countsC6 6 10 "X" = 7 := by
    rw [trucksPerWarehouseRaw, hX]
    norm_num [pythonRound]
  have rawY10 : trucksPerWarehouseRaw countsC6 6 10 "Y" = 3 := by
    rw [trucksPerWarehouseRaw, hY]
    norm_num [pythonRound]
  have rawX9 : trucksPerWarehouseRaw countsC6 6 9 "X" = 6 := by
    rw [trucksPerWarehouseRaw, hX]
    norm_num [pythonRound]
  have rawY9 : trucksPerWarehouseRaw countsC6 6 9 "Y" = 3 := by
    rw [trucksPerWarehouseRaw, hY]
    norm_num [pythonRound]
  have hdiff10 : trucksDiff countsC6 6 10 ["X", "Y"] = 0 := by
    rw [trucksDiff, allocSum, hkeys]
    simp only [List.map_cons, List.map_nil, List.sum_cons, List.sum_nil,
      rawX10, rawY10]
    norm_num
  have hdiff9 : trucksDiff countsC6 6 9 ["X", "Y"] = 0 := by
    rw [trucksDiff, allocSum, hkeys]
    simp only [List.map_cons, List.map_nil, List.sum_cons, List.sum_nil,
      rawX9, rawY9]
    norm_num
  refine ⟨hX, hY, hdiff10, ?_, ?_, hdiff9, ?_, ?_⟩
  · simp only [trucks_per_warehouse, hdiff10]
    simpa using rawX10
  · simp only [trucks_per_warehouse, hdiff10]
    simpa using rawY10
  · simp only [trucks_per_warehouse, hdiff9]
    simpa using rawX9
  · simp only [trucks_per_warehouse, hdiff9]
    simpa using rawY9

/-! ## Lemmas about the load partition -/

/-- Appending to a bucket updates that key's entry. -/
theorem lookup_addToBucket_self (t : Nat) (pc : String) :
    ∀ items : List (Nat × List String),
      (addToBucket items t pc).lookup t
        = some (((items.lookup t).getD []) ++ [pc]) := by
  intro items
  induction items with
  | nil => simp [addToBucket, List.lookup]
  | cons kl rest ih =>
    rcases kl with ⟨k, l⟩
    by_cases hk : k = t
    · subst hk
      simp [addToBucket, List.lookup]
    · have hbeq : (t == k) = false := by
        simp [hk]
        exact fun h => hk h.symm
      simp [addToBucket, hk, List.lookup, hbeq, ih]

/-- Appending to a bucket leaves the other keys' entries unchanged. -/
theorem lookup_addToBucket_ne (t t' : Nat) (pc : String) (hne : t' ≠ t) :
    ∀ items : List (Nat × List String),
      (addToBucket items t pc).lookup t' = items.lookup t' := by
  intro items
  induction items with
  | nil =>
    have hbeq : (t' == t) = false := by
      simp [hne]
    simp [addToBucket, List.lookup, hbeq]
  | cons kl rest ih =>
    rcases kl with ⟨k, l⟩
    by_cases hk : k = t
    · subst hk
      have hbeq : (t' == k) = false := by simp [hne]
      simp [addToBucket, List.lookup, hbeq]
    · by_cases hk' : k = t'
      · subst hk'
        simp [addToBucket, hk, List.lookup]
      · have hbeq : (t' == k) = false := by
          simp
          exact fun h => hk' h.symm
        simp [addToBucket, hk, List.lookup, hbeq, ih]

/-- The `defaultdict` fold of `divide_postcodes_among_trucks`: starting from
any bucket state, truck `t` ends with its previous load followed by the
postcodes whose index is congruent to `t` modulo `k`, in input order. -/
theorem divideAux (k t : Nat) :
    ∀ (ps : List String) (n : Nat) (items : List (Nat × List String)),
      ((((List.enumFrom n ps).foldl
          (fun items ip => addToBucket items (ip.1 % k) ip.2) items).lookup
            t).getD [])
        = ((items.lookup t).getD [])
          ++ (((List.enumFrom n ps).filter
              (fun ip => decide (ip.1 % k = t))).map Prod.snd) := by
  intro ps
  induction ps with
  | nil => intro n items; simp
  | cons p ps ih =>
    intro n items
    show ((((n, p) :: List.enumFrom (n + 1) ps).foldl
        (fun items ip => addToBucket items (ip.1 % k) ip.2) items).lookup
          t).getD [] = _
    simp only [List.foldl_cons, List.filter_cons]
    by_cases hm : n % k = t
    · rw [ih (n + 1) (addToBucket items (n % k) p)]
      rw [hm, lookup_addToBucket_self]
      simp [hm]
    · rw [ih (n + 1) (addToBucket items (n % k) p)]
      rw [lookup_addToBucket_ne _ _ _ (fun h => hm h.symm)]
      simp [hm]

/-- The load of truck `t` is exactly the postcodes at indices congruent to
`t` modulo `numTrucks`, in input order. -/
theorem truckBucket_eq_filter (ps : List String) (k : Nat) :
    ∀ t, truckBucket ps k t
      = (ps.enum.filter (fun ip => decide (ip.1 % k = t))).map Prod.snd := by
  intro t
  unfold truckBucket divide_postcodes_among_trucks
  rw [show ps.enum = List.enumFrom 0 ps from rfl]
  rw [divideAux k t ps 0 []]
  simp

/-- The number of indices below `n` that are congruent to `t` modulo `k`. -/
theorem countP_mod_range (k t : Nat) (hk : 0 < k) (ht : t < k) :
    ∀ n, (List.range n).countP (fun i => decide (i % k = t))
      = n / k + if t < n % k then 1 else 0 := by
  intro n
  induction n with
  | zero => simp
  | succ n ih =>
    have hr : n % k < k := Nat.mod_lt n hk
    have hqr : k * (n / k) + n % k = n := Nat.div_add_mod n k
    rcases Nat.lt_or_ge (n % k + 1) k with hlt | hge
    · have hn1 : n + 1 = (n % k + 1) + k * (n / k) := by omega
      have hdiv : (n + 1) / k = n / k := by
        rw [hn1, Nat.add_mul_div_left _ _ hk, Nat.div_eq_of_lt hlt,
          Nat.zero_add]
      have hmod : (n + 1) % k = n % k + 1 := by
        rw [hn1, Nat.add_mul_mod_self_left, Nat.mod_eq_of_lt hlt]
      rw [List.range_succ, List.countP_append, ih, hdiv, hmod]
      simp only [List.countP_cons, List.countP_nil, Nat.zero_add,
        decide_eq_true_eq]
      split_ifs <;> omega
    · have hk1 : n % k + 1 = k := by omega
      have hn1 : n + 1 = k * (n / k + 1) := by
        rw [Nat.mul_add, Nat.mul_one]
        omega
      have hdiv : (n + 1) / k = n / k + 1 := by
        rw [hn1, Nat.mul_div_cancel_left _ hk]
      have hmod : (n + 1) % k = 0 := by
        rw [hn1, Nat.mul_mod_right]
      rw [List.range_succ, List.countP_append, ih, hdiv, hmod]
      simp only [List.countP_cons, List.countP_nil, Nat.zero_add,
        decide_eq_true_eq]
      split_ifs <;> omega

/-- Mapping under a concatenation of lists. -/
theorem join_map_map {α β : Type} (f : α → β) :
    ∀ L : List (List α), (L.map (List.map f)).join = (L.join).map f := by
  intro L
  induction L with
  | nil => simp
  | cons l L ih =>
    simp only [List.map_cons, List.join_cons, List.map_append, ih]

/-- Closed form of a truck load's size. -/
theorem truckBucket_length (ps : List String) (k t : Nat) (hk : 0 < k)
    (ht : t < k) :
    (truckBucket ps k t).length
      = ps.length / k + if t < ps.length % k then 1 else 0 := by
  rw [truckBucket_eq_filter ps k t, List.length_map,
    ← List.countP_eq_length_filter]
  have hfst : ps.enum.countP (fun ip => decide (ip.1 % k = t))
      = (ps.enum.map Prod.fst).countP (fun i => decide (i % k = t)) := by
    rw [List.countP_map]
    rfl
  rw [hfst, List.enum_map_fst, countP_mod_range k t hk ht]

/-- C7: for every location list and positive truck count, the i-th location
(0-indexed) goes to truck `i mod numTrucks`; the concatenation of all truck
loads is a permutation of the warehouse's assigned list (no omissions, no
duplicates); and any two loads differ in size by at most one. -/
theorem C7_round_robin (ps : List String) (k : Nat) (hk : 0 < k) :
    (∀ t, truckBucket ps k t
        = (ps.enum.filter (fun ip => decide (ip.1 % k = t))).map Prod.snd) ∧
    (((List.range k).map (fun t => truckBucket ps k t)).join).Perm ps ∧
    (∀ t₁ t₂, t₁ < k → t₂ < k →
      (truckBucket ps k t₁).length ≤ (truckBucket ps k t₂).length + 1) := by
  refine ⟨truckBucket_eq_filter ps k, ?_, ?_⟩
  · have hmap : (List.range k).map (fun t => truckBucket ps k t)
        = (List.range k).map (fun t =>
            (ps.enum.filter (fun ip => decide (ip.1 % k = t))).map Prod.snd) :=
      List.map_congr_left (fun t _ => truckBucket_eq_filter ps k t)
    rw [hmap]
    have hperm := perm_join_filter (fun ip : Nat × String => ip.1 % k)
      (List.range k) ps.enum (List.nodup_range k)
      (fun ip _ => List.mem_range.2 (Nat.mod_lt _ hk))
    have hperm2 := hperm.map Prod.snd
    rw [List.enum_map_snd, ← join_map_map Prod.snd, List.map_map] at hperm2
    exact hperm2
  · intro t₁ t₂ h₁ h₂
    rw [truckBucket_length ps k t₁ hk h₁, truckBucket_length ps k t₂ hk h₂]
    split_ifs <;> omega

/-- Witness for C7 at a concrete input. -/
theorem C7_witness :
    0 < 2 ∧
    ((∀ t, truckBucket ["a", "b", "c"] 2 t
        = ((["a", "b", "c"] : List String).enum.filter
            (fun ip => decide (ip.1 % 2 = t))).map Prod.snd) ∧
      (((List.range 2).map (fun t => truckBucket ["a", "b", "c"] 2 t)).join).Perm
        ["a", "b", "c"] ∧
      (∀ t₁ t₂, t₁ < 2 → t₂ < 2 →
        (truckBucket ["a", "b", "c"] 2 t₁).length
          ≤ (truckBucket ["a", "b", "c"] 2 t₂).length + 1)) :=
  ⟨by decide, C7_round_robin ["a", "b", "c"] 2 (by decide)⟩

/-! ## Lemmas about the route aggregation -/

/-- The truck-routes fold of `optimise_routes_for_trucks`, from any
accumulator: it appends, for each truck with a non-empty stop list, the
record built from the route oracle's answer. -/
theorem optimise_aux (route : RouteO) (warehouse : String) :
    ∀ (trucks : List (Nat × List String)) (acc : List (Nat × TruckRoute)),
      trucks.foldl
        (fun acc t =>
          if t.2.isEmpty then acc
          else
            let info := route ([warehouse] ++ t.2 ++ [warehouse])
            let total : ℚ :=
              if info.isEmpty then 0
              else ((info.map (fun leg => leg.2)).sum : Nat)
            acc ++ [(t.1, ⟨info.map (fun leg => leg.1), total / 1000⟩)])
        acc
      = acc ++ (trucks.filter (fun t => !t.2.isEmpty)).map
          (fun t =>
            (t.1, ⟨(route ([warehouse] ++ t.2 ++ [warehouse])).map
                (fun leg => leg.1),
              (if (route ([warehouse] ++ t.2 ++ [warehouse])).isEmpty
                then (0 : ℚ)
                else (((route ([warehouse] ++ t.2 ++ [warehouse])).map
                  (fun leg => leg.2)).sum : Nat)) / 1000⟩)) := by
  intro trucks
  induction trucks with
  | nil => intro acc; simp
  | cons t ts ih =>
    intro acc
    simp only [List.foldl_cons, List.filter_cons]
    by_cases hp : t.2.isEmpty
    · simp only [hp, if_true, Bool.not_true]
      rw [ih]
      simp
    · simp only [hp, if_false, Bool.not_false]
      rw [ih]
      simp [List.append_assoc]

/-- `optimise_routes_for_trucks` as a map over the non-empty trucks. -/
theorem optimise_eq_map (route : RouteO) (trucks : List (Nat × List String))
    (warehouse : String) :
    optimise_routes_for_trucks route trucks warehouse
      = (trucks.filter (fun t => !t.2.isEmpty)).map
          (fun t =>
            (t.1, ⟨(route ([warehouse] ++ t.2 ++ [warehouse])).map
                (fun leg => leg.1),
              (if (route ([warehouse] ++ t.2 ++ [warehouse])).isEmpty
                then (0 : ℚ)
                else (((route ([warehouse] ++ t.2 ++ [warehouse])).map
                  (fun leg => leg.2)).sum : Nat)) / 1000⟩)) := by
  unfold optimise_routes_for_trucks
  rw [optimise_aux]
  simp

/-- The guard `total_distance = sum(...) if route_info else 0` equals the
plain sum, because the sum over no legs is zero anyway. -/
theorem ite_isEmpty_sum (l : List (String × Nat)) :
    (if l.isEmpty then (0 : ℚ) else ((l.map (fun leg => leg.2)).sum : Nat))
      = (((l.map (fun leg => leg.2)).sum : Nat) : ℚ) := by
  cases l <;> simp

/-- Accumulating `total_distance` over the truck reports is their sum. -/
theorem foldl_add_total (l : List (Nat × TruckRoute)) :
    ∀ c : ℚ, l.foldl (fun acc td => acc + td.2.total_distance) c
      = c + (l.map (fun td => td.2.total_distance)).sum := by
  induction l with
  | nil => intro c; simp
  | cons td l ih =>
    intro c
    simp only [List.foldl_cons, List.map_cons, List.sum_cons]
    rw [ih]
    ring

/-- The warehouse total as a sum of leg-distance sums over the non-empty
trucks. -/
theorem warehouseTotal_eq (route : RouteO) (trucks : List (Nat × List String))
    (warehouse : String) :
    warehouseTotal route trucks warehouse
      = ((trucks.filter (fun t => !t.2.isEmpty)).map
          (fun t => (((route ([warehouse] ++ t.2 ++ [warehouse])).map
            (fun leg => leg.2)).sum : ℚ) / 1000)).sum := by
  unfold warehouseTotal
  rw [optimise_eq_map, foldl_add_total, List.map_map, zero_add]
  congr 1
  apply List.map_congr_left
  intro t _
  simp only [Function.comp]
  rw [ite_isEmpty_sum, Nat.cast_list_sum, List.map_map]
  rfl

/-- Looking up a key in the mapped-and-filtered truck list: the unique truck
with that key, provided its load is non-empty and keys are duplicate-free. -/
theorem lookup_filter_map (g : Nat × List String → Nat × TruckRoute)
    (hg : ∀ t, (g t).1 = t.1) (tid : Nat) (stops : List String) :
    ∀ trucks : List (Nat × List String), (trucks.map Prod.fst).Nodup →
      (tid, stops) ∈ trucks → ¬stops.isEmpty →
      (((trucks.filter (fun t => !t.2.isEmpty)).map g).lookup tid)
        = some (g (tid, stops)).2 := by
  intro trucks
  induction trucks with
  | nil => intro _ h _; cases h
  | cons t ts ih =>
    rcases t with ⟨a, l⟩
    intro hnd hmem hne
    have hnd' : a ∉ ts.map Prod.fst ∧ (ts.map Prod.fst).Nodup := by
      simpa using hnd
    rcases List.mem_cons.1 hmem with heq | hmem'
    · injection heq with h1 h2
      subst h1
      subst h2
      rw [List.filter_cons_of_pos (by simpa using hne)]
      obtain ⟨v, hv⟩ : ∃ v, g (tid, stops) = (tid, v) :=
        ⟨(g (tid, stops)).2, Prod.ext (hg _) rfl⟩
      rw [List.map_cons, hv]
      simp [List.lookup]
    · have htid : tid ∈ ts.map Prod.fst :=
        List.mem_map.2 ⟨(tid, stops), hmem', rfl⟩
      have hane : a ≠ tid := fun h => hnd'.1 (h ▸ htid)
      by_cases hl : l.isEmpty
      · rw [List.filter_cons_of_neg (by simpa using hl)]
        exact ih hnd'.2 hmem' hne
      · rw [List.filter_cons_of_pos (by simpa using hl)]
        obtain ⟨v, hv⟩ : ∃ v, g (a, l) = (a, v) :=
          ⟨(g (a, l)).2, Prod.ext (hg _) rfl⟩
        rw [List.map_cons, hv]
        have hbeq : (tid == a) = false := by
          simp
          exact fun h => hane h.symm
        simp only [List.lookup, hbeq]
        exact ih hnd'.2 hmem' hne

/-- The reported record of a truck with a non-empty load: the oracle's leg
end addresses and the leg-distance sum divided by 1000. -/
theorem lookup_optimise (route : RouteO) (warehouse : String) (tid : Nat)
    (stops : List String) (trucks : List (Nat × List String))
    (hnd : (trucks.map Prod.fst).Nodup) (hmem : (tid, stops) ∈ trucks)
    (hne : stops ≠ []) :
    (optimise_routes_for_trucks route trucks warehouse).lookup tid
      = some ⟨(route ([warehouse] ++ stops ++ [warehouse])).map
          (fun leg => leg.1),
        (((route ([warehouse] ++ stops ++ [warehouse])).map
          (fun leg => leg.2)).sum : ℚ) / 1000⟩ := by
  rw [optimise_eq_map]
  rw [lookup_filter_map _ (fun t => rfl) tid stops trucks hnd hmem
    (by simpa using hne)]
  simp only [ite_isEmpty_sum, Nat.cast_list_sum, List.map_map, Function.comp]
  split_ifs with hc
  · have hc' : route (warehouse :: (stops ++ [warehouse])) = [] :=
      List.isEmpty_iff.1 hc
    simp [hc']
  · rfl

/-- Dropping a truck whose contribution is zero does not change the
warehouse total (sum form). -/
theorem sum_filter_erase (f : Nat × List String → ℚ) (tid : Nat)
    (stops : List String) (hzero : f (tid, stops) = 0) :
    ∀ trucks : List (Nat × List String), (trucks.map Prod.fst).Nodup →
      (tid, stops) ∈ trucks →
      ((trucks.filter (fun t => !t.2.isEmpty)).map f).sum
        = (((trucks.filter (fun t => !(t.1 == tid))).filter
            (fun t => !t.2.isEmpty)).map f).sum := by
  intro trucks
  induction trucks with
  | nil => intro _ h; cases h
  | cons t ts ih =>
    rcases t with ⟨a, l⟩
    intro hnd hmem
    have hnd' : a ∉ ts.map Prod.fst ∧ (ts.map Prod.fst).Nodup := by
      simpa using hnd
    by_cases ha : a = tid
    · subst ha
      have heq : stops = l := by
        rcases List.mem_cons.1 hmem with heq | hmem'
        · exact congrArg Prod.snd heq
        · exact absurd (List.mem_map.2 ⟨(a, stops), hmem', rfl⟩) hnd'.1
      subst heq
      have hrhs : ((a, stops) :: ts).filter (fun t => !(t.1 == a)) = ts := by
        rw [List.filter_cons_of_neg (by simp)]
        apply List.filter_eq_self.2
        intro t ht
        have ht1 : t.1 ≠ a := fun h => hnd'.1 (h ▸ List.mem_map.2 ⟨t, ht, rfl⟩)
        simpa using ht1
      rw [hrhs]
      by_cases hl : stops.isEmpty
      · rw [List.filter_cons_of_neg (by simp [hl])]
      · rw [List.filter_cons_of_pos (by simp [hl]), List.map_cons,
          List.sum_cons, hzero, zero_add]
    · have hmem' : (tid, stops) ∈ ts := by
        rcases List.mem_cons.1 hmem with heq | hmem'
        · injection heq with h1 _
          exact absurd h1.symm ha
        · exact hmem'
      have hrhs : ((a, l) :: ts).filter (fun t => !(t.1 == tid))
          = (a, l) :: ts.filter (fun t => !(t.1 == tid)) := by
        rw [List.filter_cons_of_pos (by simp [ha])]
      rw [hrhs]
      by_cases hl : l.isEmpty
      · rw [List.filter_cons_of_neg (by simp [hl]),
          List.filter_cons_of_neg (by simp [hl])]
        exact ih hnd'.2 hmem'
      · rw [List.filter_cons_of_pos (by simp [hl]),
          List.filter_cons_of_pos (by simp [hl])]
        simp only [List.map_cons, List.sum_cons]
        rw [ih hnd'.2 hmem']

/-- The grand total of `main` equals the sum of the warehouse totals over
the whole warehouse list (warehouses with no assigned locations are skipped
by the `continue`, but their warehouse total is zero anyway). -/
theorem grandTotal_eq_sum (route : RouteO) (A : String → List String)
    (nt : String → Nat) (ws : List String) :
    grandTotal route A nt ws
      = (ws.map (fun w => warehouseTotal route
          (divide_postcodes_among_trucks (A w) (nt w)) w)).sum := by
  have aux : ∀ (l : List String) (c : ℚ),
      l.foldl
        (fun acc w =>
          if (A w).isEmpty then acc
          else acc + warehouseTotal route
            (divide_postcodes_among_trucks (A w) (nt w)) w) c
      = c + (l.map (fun w => warehouseTotal route
          (divide_postcodes_among_trucks (A w) (nt w)) w)).sum := by
    intro l
    induction l with
    | nil => intro c; simp
    | cons w l ih =>
      intro c
      simp only [List.foldl_cons, List.map_cons, List.sum_cons]
      by_cases hw : (A w).isEmpty
      · rw [if_pos hw, ih]
        have hempty : A w = [] := List.isEmpty_iff.1 hw
        have hzero : warehouseTotal route
            (divide_postcodes_among_trucks (A w) (nt w)) w = 0 := by
          rw [hempty]
          rfl
        rw [hzero]
        ring
      · rw [if_neg hw, ih]
        ring
  unfold grandTotal
  rw [aux, zero_add]

/-- C8: a vehicle with a non-empty load is reported with total distance
equal to the sum of the oracle's leg distances for the closed waypoint list
`[warehouse] ++ stops ++ [warehouse]` divided by 1000; the warehouse total is
the sum of its (non-empty) vehicles' totals; and the fleet-wide total is the
sum of the warehouse totals. -/
theorem C8_totals (route : RouteO) (trucks : List (Nat × List String))
    (warehouse : String) (A : String → List String) (nt : String → Nat)
    (ws : List String) (tid : Nat) (stops : List String)
    (hnd : (trucks.map Prod.fst).Nodup) (hmem : (tid, stops) ∈ trucks)
    (hne : stops ≠ []) :
    ((optimise_routes_for_trucks route trucks warehouse).lookup tid
      = some ⟨(route ([warehouse] ++ stops ++ [warehouse])).map
          (fun leg => leg.1),
        (((route ([warehouse] ++ stops ++ [warehouse])).map
          (fun leg => leg.2)).sum : ℚ) / 1000⟩) ∧
    (warehouseTotal route trucks warehouse
      = ((trucks.filter (fun t => !t.2.isEmpty)).map
          (fun t => (((route ([warehouse] ++ t.2 ++ [warehouse])).map
            (fun leg => leg.2)).sum : ℚ) / 1000)).sum) ∧
    (grandTotal route A nt ws
      = (ws.map (fun w => warehouseTotal route
          (divide_postcodes_among_trucks (A w) (nt w)) w)).sum) :=
  ⟨lookup_optimise route warehouse tid stops trucks hnd hmem hne,
    warehouseTotal_eq route trucks warehouse,
    grandTotal_eq_sum route A nt ws⟩

/-- Route oracle for the C8 witness. -/
def routeW8 : RouteO := fun wps =>
  if wps = ["W", "a", "W"] then [("ar", 1500)] else []

/-- Witness for C8 at a concrete input. -/
theorem C8_witness :
    (([(0, ["a"])] : List (Nat × List String)).map Prod.fst).Nodup ∧
    ((0 : Nat), (["a"] : List String)) ∈ ([(0, ["a"])] : List (Nat × List String)) ∧
    (["a"] : List String) ≠ [] ∧
    (((optimise_routes_for_trucks routeW8 [(0, ["a"])] "W").lookup 0
      = some ⟨(routeW8 (["W"] ++ ["a"] ++ ["W"])).map (fun leg => leg.1),
        (((routeW8 (["W"] ++ ["a"] ++ ["W"])).map
          (fun leg => leg.2)).sum : ℚ) / 1000⟩) ∧
    (warehouseTotal routeW8 [(0, ["a"])] "W"
      = ((([(0, ["a"])] : List (Nat × List String)).filter
          (fun t => !t.2.isEmpty)).map
          (fun t => (((routeW8 (["W"] ++ t.2 ++ ["W"])).map
            (fun leg => leg.2)).sum : ℚ) / 1000)).sum) ∧
    (grandTotal routeW8 (fun _ => []) (fun _ => 1) ["W"]
      = ((["W"] : List String).map (fun w => warehouseTotal routeW8
          (divide_postcodes_among_trucks [] 1) w)).sum)) :=
  ⟨by decide, by decide, by decide,
    C8_totals routeW8 [(0, ["a"])] "W" (fun _ => []) (fun _ => 1) ["W"] 0
      ["a"] (by decide) (by decide) (by decide)⟩

/-- Route oracle that fails for every request. -/
def routeFailC9 : RouteO := fun _ => []

/-- C9 as stated is false in its warning half: when the route oracle fails
for the only vehicle, that vehicle is still reported with an empty route and
zero total distance — but `optimise_routes_for_trucks` emits no warning-level
event (its body contains no logging call), so the degradation is not
surfaced as a warning-level condition to the caller. -/
theorem C9_counterexample :
    routeFailC9 (["W"] ++ ["a"] ++ ["W"]) = [] ∧
    optimise_routes_for_trucks routeFailC9 [(0, ["a"])] "W"
      = [(0, ⟨[], 0⟩)] ∧
    optimiseWarnings routeFailC9 [(0, ["a"])] "W" = 0 := by
  refine ⟨rfl, ?_, rfl⟩
  norm_num [optimise_routes_for_trucks, routeFailC9]

/-- C9, amended: when the route oracle fails for a vehicle with a non-empty
load, the run does not fail — the vehicle is still reported, with an empty
route and total distance zero, and the warehouse total is unchanged by
dropping that vehicle — but no warning-level condition is emitted; the
degradation is visible only as the empty route itself. -/
theorem C9_route_failure_amended (route : RouteO)
    (trucks : List (Nat × List String)) (warehouse : String) (tid : Nat)
    (stops : List String) (hnd : (trucks.map Prod.fst).Nodup)
    (hmem : (tid, stops) ∈ trucks) (hne : stops ≠ [])
    (hfail : route ([warehouse] ++ stops ++ [warehouse]) = []) :
    ((optimise_routes_for_trucks route trucks warehouse).lookup tid
      = some ⟨[], 0⟩) ∧
    (warehouseTotal route trucks warehouse
      = warehouseTotal route (trucks.filter (fun t => !(t.1 == tid)))
          warehouse) ∧
    optimiseWarnings route trucks warehouse = 0 := by
  refine ⟨?_, ?_, rfl⟩
  · rw [lookup_optimise route warehouse tid stops trucks hnd hmem hne, hfail]
    simp
  · rw [warehouseTotal_eq, warehouseTotal_eq]
    exact sum_filter_erase _ tid stops (by rw [hfail]; simp) trucks hnd hmem

/-- Witness for the amended C9 at a concrete input. -/
theorem C9_witness :
    (([(0, ["a"]), (1, ["b"])] : List (Nat × List String)).map
      Prod.fst).Nodup ∧
    ((0 : Nat), (["a"] : List String))
      ∈ ([(0, ["a"]), (1, ["b"])] : List (Nat × List String)) ∧
    (["a"] : List String) ≠ [] ∧
    routeFailC9 (["W"] ++ ["a"] ++ ["W"]) = [] ∧
    (((optimise_routes_for_trucks routeFailC9 [(0, ["a"]), (1, ["b"])]
        "W").lookup 0 = some ⟨[], 0⟩) ∧
    (warehouseTotal routeFailC9 [(0, ["a"]), (1, ["b"])] "W"
      = warehouseTotal routeFailC9
          (([(0, ["a"]), (1, ["b"])] : List (Nat × List String)).filter
            (fun t => !(t.1 == 0))) "W") ∧
    optimiseWarnings routeFailC9 [(0, ["a"]), (1, ["b"])] "W" = 0) :=
  ⟨by decide, by decide, by decide, rfl,
    C9_route_failure_amended routeFailC9 [(0, ["a"]), (1, ["b"])] "W" 0 ["a"]
      (by decide) (by decide) (by decide) rfl⟩

/-- Oracle for the C10 witness: the empty-string warehouse is nearest. -/
def distW10 : Oracle := fun w _ =>
  if w = "" then some 1 else if w = "A" then some 3 else none

/-- Witness for C10 at a concrete input: warehouses `["A", ""]`, where `""`
is the unique nearest warehouse for `"p"` but `"p"` goes to `"A"`. -/
theorem C10_witness :
    nearestWarehouse distW10 ["A", ""] "p" = some (1, "") ∧
    "p" ∈ (["p"] : List String) ∧
    (chosenWarehouse distW10 ["A", ""] "p" = "A" ∧
      "p" ∈ assign_postcodes_to_warehouses distW10 ["A", ""] ["p"] "A" ∧
      (∀ q : String, chosenWarehouse distW10 ["A", ""] q = "" → "A" = "")) :=
  ⟨by decide, by decide,
    C10_empty_string_warehouse distW10 "A" [""] ["p"] "p" 1 (by decide)
      (by decide)⟩
